import Mathlib

/-!
Verification development for the "universal testnet bot" repository.

The repository ships near-duplicate variants of the same program:
`src/index.js` and, inside `src/unnamed/part_000`, a second variant
(`universal_testnet_bot.js`, starting at its shebang after the first
truncated copy of index.js).  Where the two variants diverge, this file
embeds both: definitions without a suffix model `src/index.js`, and
definitions with a `U` suffix model the `universal_testnet_bot.js`
variant from `src/unnamed/part_000`.

Modelling conventions (shallow embedding):
 * JS numbers that matter here are either small integers (modelled as
   `Nat`/`Int`) or decimal fractions (modelled as `Rat`); `NaN` is
   modelled with `Option`.
 * Every `await`ed network call is a suspension point.  Executors are
   parametrised by an environment record giving each call's outcome as
   `Except String α` (`.error e` = the promise rejected / threw `e`);
   a `try/catch` in the source becomes the corresponding `match`.
 * The activity runner is modelled as a pure function producing the
   trace of awaited operations, each tagged with its 0-based operation
   index; a pending stop request is a threshold `stopAt = some k`
   meaning the request arrives while the k-th (1-based) awaited
   operation is in flight, so the `shouldStop` flag reads `true` at
   every check once at least `k` operations have completed.
-/

/-! ### Log buffer (`addLog` / `trimLogs`)

`src/index.js` lines 74-88: `addLog` pushes a formatted message and then
`trimLogs(limit = 1000)` keeps only the last 1000 entries
(`transactionLogs.slice(-limit)`).  The timestamp/colour formatting of
the pushed string is irrelevant to the buffered count and order, so the
model appends the message itself.

`src/unnamed/part_000` lines 319-328 (`universal_testnet_bot.js`):
`addLog` pushes and never trims.
-/

def LOG_LIMIT : Nat := 1000

def trimLogs (logs : List String) : List String :=
  if logs.length > LOG_LIMIT then logs.drop (logs.length - LOG_LIMIT) else logs

def addLog (logs : List String) (msg : String) : List String :=
  trimLogs (logs ++ [msg])

def addLogU (logs : List String) (msg : String) : List String :=
  logs ++ [msg]

/-! ### Line-oriented file loading (`readLines` / `readFileLines`)

Both variants split on `"\n"`, trim each line and drop empty lines.
The file contents are passed in as a string (the `fs` access itself is
out of scope; a missing file behaves as the empty string and yields
`[]`, as does the source's early return).
-/

def readLines (data : String) : List String :=
  ((data.splitOn "\n").map String.trim).filter (fun l => l.length > 0)

/-! ### Proxy resolution

`src/index.js` line 292: `proxies[i % Math.max(1, proxies.length)] || null`.
`src/unnamed/part_000` line 550: `proxies[i % proxies.length] || null`;
for an empty list JS evaluates `i % 0 = NaN`, `proxies[NaN] = undefined`,
`undefined || null = null`, which the model renders as `none` (in Lean
`i % 0 = i` and `[].get? i = none`, the same result).  The `|| null`
also maps an empty-string entry (falsy) to `null`.
-/

def resolveProxy (proxies : List String) (i : Nat) : Option String :=
  match proxies.get? (i % max 1 proxies.length) with
  | some s => if s = "" then none else some s
  | none => none

def resolveProxyU (proxies : List String) (i : Nat) : Option String :=
  match proxies.get? (i % proxies.length) with
  | some s => if s = "" then none else some s
  | none => none

/-! ### Config loading (`loadConfig` / `loadEnvironment`)

Both variants do
`dailyActivityConfig.bridgeRepetitions = Number(c.bridgeRepetitions) || 1`
(and the same for `swapRepetitions`).  A JSON field is modelled by
`JsonField`; `jsNumber` is JS `Number(...)` on it (`none` = `NaN`).
For a string field the result of JS numeric parsing is carried as the
payload (`none` = a non-numeric string, i.e. `NaN`).  `jsOr1` is the
JS `x || 1`: `NaN` and `0` are falsy.
-/

inductive JsonField where
  | missing
  | null
  | bool (b : Bool)
  | num (q : Rat)
  | str (numValue : Option Rat)
  deriving DecidableEq, Repr

def jsNumber : JsonField → Option Rat
  | .missing => none
  | .null => some 0
  | .bool b => some (if b then 1 else 0)
  | .num q => some q
  | .str v => v

def jsOr1 (v : Option Rat) : Rat :=
  match v with
  | none => 1
  | some q => if q = 0 then 1 else q

structure ActivityConfig where
  bridgeRepetitions : Rat
  swapRepetitions : Rat
  deriving DecidableEq, Repr

def loadConfig (bridgeField swapField : JsonField) : ActivityConfig :=
  { bridgeRepetitions := jsOr1 (jsNumber bridgeField)
    swapRepetitions := jsOr1 (jsNumber swapField) }

/-! ### Amounts

`src/index.js` lines 201-204:
`const amount = (Math.random() * (0.03 - 0.01) + 0.01).toFixed(6)` and
`ethers.parseUnits(amount.toString(), 18)`.
`src/unnamed/part_000` line 449 (universal variant):
`(Math.random() * (0.05 - 0.01) + 0.01).toFixed(6)`.

`Math.random()` is modelled as an arbitrary rational `r` with
`0 ≤ r < 1`.  `toFixed(6)` rounds to the nearest multiple of `10⁻⁶`
(ties away from zero; all values here are positive, where that agrees
with Mathlib's `round`).  `parseUnits(s, 18)` on a 6-decimal string is
the exact integer `s·10¹⁸`, modelled as a floor that is exact on these
inputs.
-/

def round6 (x : Rat) : Rat :=
  ((round (x * 10 ^ 6) : Int) : Rat) / 10 ^ 6

def bridgeAmount (r : Rat) : Rat :=
  round6 (r * (3 / 100 - 1 / 100) + 1 / 100)

def bridgeAmountU (r : Rat) : Rat :=
  round6 (r * (5 / 100 - 1 / 100) + 1 / 100)

def parseUnits18 (q : Rat) : Int :=
  ⌊q * 10 ^ 18⌋

/-! ### Sleeps

`sleepRandom(minMs, maxMs)` sleeps
`Math.floor(Math.random() * (maxMs - minMs + 1)) + minMs` milliseconds;
the runner uses `sleepRandom(7000, 15000)` between the bridge and swap
phases (`src/index.js` line 300) and a fixed `sleep(30_000)` between
accounts (line 310).
-/

def sleepRandomMs (minMs maxMs : Nat) (r : Rat) : Int :=
  ⌊r * ((maxMs : Rat) - (minMs : Rat) + 1)⌋ + minMs

def INTER_ACCOUNT_SLEEP_MS : Nat := 30000

/-! ### Action executors

Each executor takes the account's secret, proxy and index and returns a
success flag (`pk`/`proxyUrl` influence nothing observable here, so the
model keeps only the account index and the amount in wei, plus the RPC
environment).  `BridgeEnv`/`SwapEnv` give the outcome of each awaited
RPC call in source order; `.error e` means that call threw `e`.

`shortHash` is the helper at `src/index.js` line 107.
-/

deriving instance DecidableEq for Except

def shortHash (h : Option String) : String :=
  match h with
  | some h => h.take 6 ++ "..." ++ h.takeRight 4
  | none => "N/A"

def isErr {α : Type} : Except String α → Bool
  | .error _ => true
  | .ok _ => false

structure BridgeEnv where
  allowance : Except String Int
  approveNonce : Except String Nat
  approveFeeData : Except String Unit
  approveSend : Except String String
  approveWait : Except String Unit
  depositNonce : Except String Nat
  depositFeeData : Except String Unit
  depositSend : Except String String
  depositWait : Except String Unit
  deriving DecidableEq, Repr

/-- Result of one executor call: the returned boolean, the log lines it
appended, and whether control reached the deposit submission
(`bridge.deposit(...)` was invoked). -/
structure ExecResult where
  ok : Bool
  logs : List String
  attemptedDeposit : Bool
  deriving DecidableEq, Repr

/-- `checkAndApproveIfNeeded` of `src/index.js` lines 166-191: queries the
allowance, skips approval when it suffices, otherwise fetches nonce and
fee data, submits an unlimited approval and waits for it; any throw is
caught and becomes `false` plus an `approve failed` log. -/
def checkAndApproveIfNeeded (env : BridgeEnv) (amountWei : Int) (accountIndex : Nat) :
    Bool × List String :=
  match env.allowance with
  | .error e => (false, [s!"Acct {accountIndex+1}: approve failed: {e}"])
  | .ok allowance =>
    if allowance ≥ amountWei then
      (true, [s!"Acct {accountIndex+1}: allowance already OK for bridge token"])
    else
      let l0 := [s!"Acct {accountIndex+1}: approving bridge token..."]
      match env.approveNonce with
      | .error e => (false, l0 ++ [s!"Acct {accountIndex+1}: approve failed: {e}"])
      | .ok _ =>
        match env.approveFeeData with
        | .error e => (false, l0 ++ [s!"Acct {accountIndex+1}: approve failed: {e}"])
        | .ok _ =>
          match env.approveSend with
          | .error e => (false, l0 ++ [s!"Acct {accountIndex+1}: approve failed: {e}"])
          | .ok h =>
            let l1 := l0 ++ [s!"Acct {accountIndex+1}: approval tx {shortHash (some h)} sent"]
            match env.approveWait with
            | .error e => (false, l1 ++ [s!"Acct {accountIndex+1}: approve failed: {e}"])
            | .ok _ => (true, l1 ++ [s!"Acct {accountIndex+1}: approval mined"])

/-- `checkAndApprove` of `src/unnamed/part_000` lines 407-432
(universal variant); same control flow as `checkAndApproveIfNeeded`,
with its slightly different log wording. -/
def checkAndApprove (env : BridgeEnv) (amountWei : Int) (accountIdx : Nat) :
    Bool × List String :=
  match env.allowance with
  | .error e => (false, [s!"Acct {accountIdx+1}: approve failed: {e}"])
  | .ok allowance =>
    if allowance ≥ amountWei then
      (true, [s!"Acct {accountIdx+1}: allowance sufficient for bridge token"])
    else
      let l0 := [s!"Acct {accountIdx+1}: approving bridge token..."]
      match env.approveNonce with
      | .error e => (false, l0 ++ [s!"Acct {accountIdx+1}: approve failed: {e}"])
      | .ok _ =>
        match env.approveFeeData with
        | .error e => (false, l0 ++ [s!"Acct {accountIdx+1}: approve failed: {e}"])
        | .ok _ =>
          match env.approveSend with
          | .error e => (false, l0 ++ [s!"Acct {accountIdx+1}: approve failed: {e}"])
          | .ok h =>
            let l1 := l0 ++ [s!"Acct {accountIdx+1}: approval tx sent {shortHash (some h)}"]
            match env.approveWait with
            | .error e => (false, l1 ++ [s!"Acct {accountIdx+1}: approve failed: {e}"])
            | .ok _ => (true, l1 ++ [s!"Acct {accountIdx+1}: approved"])

/-- `performBridgeSimple` of `src/index.js` lines 193-226.  The
`if (!BRIDGE_ROUTER)` guard never fires (the constant is a fixed
non-empty string).  Note that line 207 ignores the helper's return
value: the deposit is attempted even when approval failed.  Everything
inside the `try` that throws is caught and becomes `false` plus a
`bridge error` log. -/
def performBridgeSimple (env : BridgeEnv) (amountWei : Int) (accountIndex : Nat) :
    ExecResult :=
  let appr := checkAndApproveIfNeeded env amountWei accountIndex
  -- `await checkAndApproveIfNeeded(...)`: result discarded, execution continues
  let logs := appr.2 ++ [s!"Acct {accountIndex+1}: bridging tokenA -> router"]
  match env.depositNonce with
  | .error e => ⟨false, logs ++ [s!"Acct {accountIndex+1}: bridge error: {e}"], false⟩
  | .ok _ =>
    match env.depositFeeData with
    | .error e => ⟨false, logs ++ [s!"Acct {accountIndex+1}: bridge error: {e}"], false⟩
    | .ok _ =>
      match env.depositSend with
      | .error e => ⟨false, logs ++ [s!"Acct {accountIndex+1}: bridge error: {e}"], true⟩
      | .ok h =>
        let l1 := logs ++ [s!"Acct {accountIndex+1}: bridge tx {shortHash (some h)} sent"]
        match env.depositWait with
        | .error e => ⟨false, l1 ++ [s!"Acct {accountIndex+1}: bridge error: {e}"], true⟩
        | .ok _ => ⟨true, l1 ++ [s!"Acct {accountIndex+1}: bridge completed"], true⟩

/-- `performBridgeSimple` of `src/unnamed/part_000` lines 436-473
(universal variant): here line 454 is `if (!ok) return false`, so a
failed approval aborts the call before the deposit. -/
def performBridgeSimpleU (env : BridgeEnv) (amountWei : Int) (accountIdx : Nat) :
    ExecResult :=
  let appr := checkAndApprove env amountWei accountIdx
  if appr.1 then
    let logs := appr.2 ++ [s!"Acct {accountIdx+1}: bridging tokenA ->"]
    match env.depositNonce with
    | .error e => ⟨false, logs ++ [s!"Acct {accountIdx+1}: bridge error: {e}"], false⟩
    | .ok _ =>
      match env.depositFeeData with
      | .error e => ⟨false, logs ++ [s!"Acct {accountIdx+1}: bridge error: {e}"], false⟩
      | .ok _ =>
        match env.depositSend with
        | .error e => ⟨false, logs ++ [s!"Acct {accountIdx+1}: bridge error: {e}"], true⟩
        | .ok h =>
          let l1 := logs ++ [s!"Acct {accountIdx+1}: bridge tx {shortHash (some h)} sent"]
          match env.depositWait with
          | .error e => ⟨false, l1 ++ [s!"Acct {accountIdx+1}: bridge error: {e}"], true⟩
          | .ok _ => ⟨true, l1 ++ [s!"Acct {accountIdx+1}: bridge completed"], true⟩
  else
    ⟨false, appr.2, false⟩

structure SwapEnv where
  nonce : Except String Nat
  feeData : Except String Unit
  send : Except String String
  wait : Except String Unit
  deriving DecidableEq, Repr

/-- `performSwapSimple` of `src/index.js` lines 228-274: fetches nonce
and fee data, submits the multicall and waits; any throw in the `try`
is caught and becomes `false` plus a `swap error` log. -/
def performSwapSimple (env : SwapEnv) (accountIndex : Nat) : Bool × List String :=
  let l0 := [s!"Acct {accountIndex+1}: swapping (template)"]
  match env.nonce with
  | .error e => (false, l0 ++ [s!"Acct {accountIndex+1}: swap error: {e}"])
  | .ok _ =>
    match env.feeData with
    | .error e => (false, l0 ++ [s!"Acct {accountIndex+1}: swap error: {e}"])
    | .ok _ =>
      match env.send with
      | .error e => (false, l0 ++ [s!"Acct {accountIndex+1}: swap error: {e}"])
      | .ok h =>
        let l1 := l0 ++ [s!"Acct {accountIndex+1}: swap tx {shortHash (some h)} sent"]
        match env.wait with
        | .error e => (false, l1 ++ [s!"Acct {accountIndex+1}: swap error: {e}"])
        | .ok _ => (true, l1 ++ [s!"Acct {accountIndex+1}: swap completed"])

/-- `performSwapSimple` of `src/unnamed/part_000` lines 475-535
(universal variant): the RPC calls sit inside an inner `try`, whose
`catch` logs `swap encoding failed` and returns `false`. -/
def performSwapSimpleU (env : SwapEnv) (accountIdx : Nat) : Bool × List String :=
  let l0 := [s!"Acct {accountIdx+1}: swapping..."]
  match env.nonce with
  | .error e => (false, l0 ++ [s!"Acct {accountIdx+1}: swap encoding failed: {e}"])
  | .ok _ =>
    match env.feeData with
    | .error e => (false, l0 ++ [s!"Acct {accountIdx+1}: swap encoding failed: {e}"])
    | .ok _ =>
      match env.send with
      | .error e => (false, l0 ++ [s!"Acct {accountIdx+1}: swap encoding failed: {e}"])
      | .ok h =>
        let l1 := l0 ++ [s!"Acct {accountIdx+1}: swap tx {shortHash (some h)} sent"]
        match env.wait with
        | .error e => (false, l1 ++ [s!"Acct {accountIdx+1}: swap encoding failed: {e}"])
        | .ok _ => (true, l1 ++ [s!"Acct {accountIdx+1}: swap completed"])

/-- Environment for the C3 counterexample and witness: the allowance
query throws, every other RPC call succeeds. -/
def c3Env : BridgeEnv :=
  ⟨.error "allowance query failed", .ok 0, .ok (), .ok "0xaaaa", .ok (),
    .ok 1, .ok (), .ok "0xdeadbeef1234", .ok ()⟩

/-- Environment for the C6 counterexample: allowance query throws,
everything else succeeds. -/
def c6Env : BridgeEnv :=
  ⟨.error "rpc timeout", .ok 0, .ok (), .ok "0xbbbb", .ok (),
    .ok 7, .ok (), .ok "0xfeedbead5678", .ok ()⟩

/-- Swap environment for the C6 witness: the nonce fetch throws. -/
def c6SwapEnv : SwapEnv := ⟨.error "nonce fetch failed", .ok (), .ok "0xcccc", .ok ()⟩

/-! ### Activity runner (`runDailyActivityLoop`)

`src/index.js` lines 278-320 and `src/unnamed/part_000` lines 539-576
share the same loop structure:

```
for (let i = 0; i < privateKeys.length && !shouldStop; i++) {
  for (let b = 0; b < (cfg.bridgeRepetitions || 1) && !shouldStop; b++) {
    await performBridgeSimple(...);
    if (b < cfg.bridgeRepetitions - 1) await sleepRandom(8000, 20000);
  }
  await sleepRandom(7000, 15000);            // unconditional
  for (let s = 0; s < (cfg.swapRepetitions || 1) && !shouldStop; s++) {
    await performSwapSimple(...);
    if (s < cfg.swapRepetitions - 1) await sleepRandom(8000, 20000);
  }
  if (i < privateKeys.length - 1) await sleep(30_000);   // unconditional
}
```

The model records the trace of awaited operations (executor calls and
sleeps), each paired with its 0-based operation index; `stopAt = some k`
means the stop request arrives while the k-th (1-based) operation is in
flight, so `shouldStop` reads `true` at a check exactly when at least
`k` operations have completed.  No flag can change between two
consecutive synchronous statements (there is no await between the outer
guard and the first inner guard), which the model reflects by reusing
the same counter there.  The loops recurse on the remaining iteration
count (`fuel`), which is exactly the source loop bound; `b + 1 < reps`
is the JS `b < reps - 1`.

The two variants differ only after the loop: `src/index.js` wraps the
loop in `try ... finally { activityRunning = false; shouldStop = false }`
(lines 288-319), while the universal variant merely runs
`activityRunning = false` after the loop (line 575), leaving
`shouldStop` at whatever value it reached.
-/

inductive REvent where
  | bridge (acct rep : Nat)
  | swap (acct rep : Nat)
  | bridgeGapSleep (acct : Nat)
  | swapGapSleep (acct : Nat)
  | interPhaseSleep (acct : Nat)
  | interAcctSleep (acct : Nat)
  deriving DecidableEq, Repr

def REvent.isExec : REvent → Bool
  | .bridge _ _ => true
  | .swap _ _ => true
  | _ => false

def REvent.isBridge : REvent → Bool
  | .bridge _ _ => true
  | _ => false

def REvent.isSwap : REvent → Bool
  | .swap _ _ => true
  | _ => false

/-- Value of the `shouldStop` flag after `ops` completed awaited
operations, for a stop request arriving during operation `k`
(1-based; `none` = no request ever). -/
def stopFlag (stopAt : Option Nat) (ops : Nat) : Bool :=
  match stopAt with
  | none => false
  | some k => decide (k ≤ ops)

/-- JS `x || 1` on the repetition count in the loop bound. -/
def orOneNat (n : Nat) : Nat := if n = 0 then 1 else n

/-- One repetition phase (the inner bridge or swap `for` loop).
`ev b` is the executor call of repetition `b`, `gapEv` the
inter-repetition sleep.  `fuel` is the number of loop iterations left
(`reps - b`), `ops` the operation counter at the loop guard. -/
def phaseLoopAux (ev : Nat → REvent) (gapEv : REvent) (stopAt : Option Nat) (reps : Nat) :
    Nat → Nat → Nat → List (Nat × REvent) × Nat
  | 0, _b, ops => ([], ops)
  | fuel + 1, b, ops =>
    if stopFlag stopAt ops then ([], ops)
    else if b + 1 < reps then
      let rest := phaseLoopAux ev gapEv stopAt reps fuel (b + 1) (ops + 2)
      ((ops, ev b) :: (ops + 1, gapEv) :: rest.1, rest.2)
    else
      let rest := phaseLoopAux ev gapEv stopAt reps fuel (b + 1) (ops + 1)
      ((ops, ev b) :: rest.1, rest.2)

/-- The outer per-account loop shared by both variants. -/
def accountLoopAux (cfgB cfgS : Nat) (stopAt : Option Nat) (N : Nat) :
    Nat → Nat → Nat → List (Nat × REvent) × Nat
  | 0, _i, ops => ([], ops)
  | fuel + 1, i, ops =>
    if stopFlag stopAt ops then ([], ops)
    else
      let bp := phaseLoopAux (REvent.bridge i) (REvent.bridgeGapSleep i) stopAt
        (orOneNat cfgB) (orOneNat cfgB) 0 ops
      let sp := phaseLoopAux (REvent.swap i) (REvent.swapGapSleep i) stopAt
        (orOneNat cfgS) (orOneNat cfgS) 0 (bp.2 + 1)
      if i + 1 < N then
        let rest := accountLoopAux cfgB cfgS stopAt N fuel (i + 1) (sp.2 + 1)
        (bp.1 ++ ((bp.2, REvent.interPhaseSleep i)
          :: (sp.1 ++ ((sp.2, REvent.interAcctSleep i) :: rest.1))), rest.2)
      else
        let rest := accountLoopAux cfgB cfgS stopAt N fuel (i + 1) sp.2
        (bp.1 ++ ((bp.2, REvent.interPhaseSleep i) :: (sp.1 ++ rest.1)), rest.2)

/-- Final run-control flags (`activityRunning`, `shouldStop`). -/
structure RunFlags where
  running : Bool
  cancelRequested : Bool
  deriving DecidableEq, Repr

/-- `runDailyActivityLoop` of `src/index.js`: loop plus
`finally { activityRunning = false; shouldStop = false }`, so the final
flags are cleared on every exit. -/
def runDailyActivityLoop (cfgB cfgS N : Nat) (stopAt : Option Nat) :
    List (Nat × REvent) × RunFlags :=
  let out := accountLoopAux cfgB cfgS stopAt N N 0 0
  (out.1, ⟨false, false⟩)

/-- `runDailyActivityLoop` of `src/unnamed/part_000` (universal
variant): after the loop only `activityRunning = false` runs, so
`shouldStop` keeps the value it had when the loop exited. -/
def runDailyActivityLoopU (cfgB cfgS N : Nat) (stopAt : Option Nat) :
    List (Nat × REvent) × RunFlags :=
  let out := accountLoopAux cfgB cfgS stopAt N N 0 0
  (out.1, ⟨false, stopFlag stopAt out.2⟩)

/-- The claimed canonical execution order: per account, all bridge
repetitions then all swap repetitions. -/
def execOrder (N B S : Nat) : List REvent :=
  (List.range N).flatMap fun i =>
    (List.range B).map (REvent.bridge i) ++ (List.range S).map (REvent.swap i)

/-! ### Run-control surface (`handleMenuAction` flag discipline)

`src/index.js`: Start (lines 434-439 plus 283-285) starts the loop only
when not running and keys exist, setting `activityRunning = true;
shouldStop = false`; Stop (lines 440-446) sets `shouldStop = true` only
when `activityRunning`; the loop's `finally` (lines 316-319) clears
both flags on every exit kind.
-/

inductive ExitKind where
  | normal
  | cancelled
  | fault
  deriving DecidableEq, Repr

inductive CtrlOp where
  | start (hasKeys : Bool)
  | stopRequest
  | loopExit (k : ExitKind)
  deriving DecidableEq, Repr

def ctrlStep (st : RunFlags) : CtrlOp → RunFlags
  | .start hasKeys =>
    if ¬hasKeys then st
    else if st.running then st
    else ⟨true, false⟩
  | .stopRequest =>
    if st.running then ⟨st.running, true⟩ else st
  | .loopExit _ => ⟨false, false⟩

/-! ### Helper lemmas about rounding and scaling -/

/-- When `x·10⁶` is already an integer, `round6` is the identity on it. -/
theorem round6_eq_int (x : Rat) (n : Int) (h : x * 10 ^ 6 = (n : Rat)) :
    round6 x = (n : Rat) / 10 ^ 6 := by
  unfold round6
  rw [h, round_intCast]

/-! ### Lemmas about the runner trace -/

/-- Every event a repetition phase emits is an executor call `ev b` or
the inter-repetition sleep. -/
theorem phase_mem_shape {ev : Nat → REvent} {gapEv : REvent} {stopAt : Option Nat}
    {reps : Nat} :
    ∀ {fuel b ops q e}, (q, e) ∈ (phaseLoopAux ev gapEv stopAt reps fuel b ops).1 →
      (∃ b', e = ev b') ∨ e = gapEv := by
  intro fuel
  induction fuel with
  | zero => intro b ops q e h; simp [phaseLoopAux] at h
  | succ fuel ih =>
    intro b ops q e h
    simp only [phaseLoopAux] at h
    by_cases hs : stopFlag stopAt ops = true
    · simp [hs] at h
    · simp only [hs, if_false, Bool.false_eq_true] at h
      by_cases hb : b + 1 < reps
      · simp only [hb, if_true, if_pos] at h
        rcases List.mem_cons.mp h with h1 | h
        · rw [Prod.mk.injEq] at h1
          exact Or.inl ⟨b, h1.2⟩
        rcases List.mem_cons.mp h with h1 | h
        · rw [Prod.mk.injEq] at h1
          exact Or.inr h1.2
        · exact ih h
      · simp only [hb, if_false] at h
        rcases List.mem_cons.mp h with h1 | h
        · rw [Prod.mk.injEq] at h1
          exact Or.inl ⟨b, h1.2⟩
        · exact ih h

/-- An executor event tagged `q` can only be emitted while the stop flag
still reads `false` at operation count `q` (the loop guard). -/
theorem phase_exec_not_stopped {ev : Nat → REvent} {gapEv : REvent} {stopAt : Option Nat}
    {reps : Nat} (hg : gapEv.isExec = false) :
    ∀ {fuel b ops q e}, (q, e) ∈ (phaseLoopAux ev gapEv stopAt reps fuel b ops).1 →
      e.isExec = true → stopFlag stopAt q = false := by
  intro fuel
  induction fuel with
  | zero => intro b ops q e h; simp [phaseLoopAux] at h
  | succ fuel ih =>
    intro b ops q e h hx
    simp only [phaseLoopAux] at h
    by_cases hs : stopFlag stopAt ops = true
    · simp [hs] at h
    · simp only [hs, if_false, Bool.false_eq_true] at h
      by_cases hb : b + 1 < reps
      · simp only [hb, if_true, if_pos] at h
        rcases List.mem_cons.mp h with h1 | h
        · rw [Prod.mk.injEq] at h1
          rw [h1.1]
          exact Bool.eq_false_iff.mpr hs
        rcases List.mem_cons.mp h with h1 | h
        · rw [Prod.mk.injEq] at h1
          rw [h1.2] at hx
          rw [hg] at hx
          exact absurd hx (by simp)
        · exact ih h hx
      · simp only [hb, if_false] at h
        rcases List.mem_cons.mp h with h1 | h
        · rw [Prod.mk.injEq] at h1
          rw [h1.1]
          exact Bool.eq_false_iff.mpr hs
        · exact ih h hx

/-- With no stop request, a phase of `fuel` remaining iterations emits
exactly the executor events `ev b, ev (b+1), …` in order (the
inter-repetition sleeps are filtered out). -/
theorem phase_execs_none {ev : Nat → REvent} {gapEv : REvent} {reps : Nat}
    (hev : ∀ b', (ev b').isExec = true) (hg : gapEv.isExec = false) :
    ∀ fuel b ops,
      (((phaseLoopAux ev gapEv none reps fuel b ops).1.map Prod.snd).filter REvent.isExec)
        = (List.range' b fuel).map ev := by
  intro fuel
  induction fuel with
  | zero => intro b ops; simp [phaseLoopAux, List.range']
  | succ fuel ih =>
    intro b ops
    simp only [phaseLoopAux, stopFlag]
    by_cases hb : b + 1 < reps
    · simp only [hb, if_true, if_pos, Bool.false_eq_true, if_false]
      simp only [List.map_cons, List.filter_cons, hev b, hg, if_true, if_false]
      rw [ih (b + 1) (ops + 2)]
      simp [List.range']
    · simp only [hb, if_false, Bool.false_eq_true]
      simp only [List.map_cons, List.filter_cons, hev b, if_true]
      rw [ih (b + 1) (ops + 1)]
      simp [List.range']

/-- Executor events in the account loop are only emitted while the stop
flag reads `false` at their own operation index. -/
theorem acct_exec_not_stopped {cfgB cfgS : Nat} {stopAt : Option Nat} {N : Nat} :
    ∀ {fuel i ops q e}, (q, e) ∈ (accountLoopAux cfgB cfgS stopAt N fuel i ops).1 →
      e.isExec = true → stopFlag stopAt q = false := by
  intro fuel
  induction fuel with
  | zero => intro i ops q e h; simp [accountLoopAux] at h
  | succ fuel ih =>
    intro i ops q e h hx
    simp only [accountLoopAux] at h
    by_cases hs : stopFlag stopAt ops = true
    · simp [hs] at h
    · simp only [hs, if_false, Bool.false_eq_true] at h
      by_cases hN : i + 1 < N
      · simp only [hN, if_true, if_pos] at h
        rcases List.mem_append.mp h with h | h
        · refine phase_exec_not_stopped ?_ h hx
          rfl
        rcases List.mem_cons.mp h with h1 | h
        · rw [Prod.mk.injEq] at h1
          rw [h1.2] at hx
          simp [REvent.isExec] at hx
        rcases List.mem_append.mp h with h | h
        · refine phase_exec_not_stopped ?_ h hx
          rfl
        rcases List.mem_cons.mp h with h1 | h
        · rw [Prod.mk.injEq] at h1
          rw [h1.2] at hx
          simp [REvent.isExec] at hx
        · exact ih h hx
      · simp only [hN, if_false] at h
        rcases List.mem_append.mp h with h | h
        · refine phase_exec_not_stopped ?_ h hx
          rfl
        rcases List.mem_cons.mp h with h1 | h
        · rw [Prod.mk.injEq] at h1
          rw [h1.2] at hx
          simp [REvent.isExec] at hx
        rcases List.mem_append.mp h with h | h
        · refine phase_exec_not_stopped ?_ h hx
          rfl
        · exact ih h hx

/-- With no stop request the account loop's executor events are, in
order: for each account, all bridge repetitions then all swap
repetitions. -/
theorem acct_execs_none {cfgB cfgS N : Nat} :
    ∀ fuel i ops,
      (((accountLoopAux cfgB cfgS none N fuel i ops).1.map Prod.snd).filter REvent.isExec)
        = (List.range' i fuel).flatMap
            (fun a => (List.range (orOneNat cfgB)).map (REvent.bridge a)
              ++ (List.range (orOneNat cfgS)).map (REvent.swap a)) := by
  intro fuel
  induction fuel with
  | zero => intro i ops; simp [accountLoopAux, List.range']
  | succ fuel ih =>
    intro i ops
    simp only [accountLoopAux, stopFlag]
    by_cases hN : i + 1 < N
    · simp only [hN, if_true, if_pos, Bool.false_eq_true, if_false]
      simp only [List.map_append, List.filter_append, List.map_cons, List.filter_cons]
      rw [@phase_execs_none (REvent.bridge i) (REvent.bridgeGapSleep i) (orOneNat cfgB)
          (fun b' => rfl) rfl,
        @phase_execs_none (REvent.swap i) (REvent.swapGapSleep i) (orOneNat cfgS)
          (fun b' => rfl) rfl,
        ih (i + 1) _]
      simp [List.range', List.range_eq_range', REvent.isExec]
    · simp only [hN, if_false, Bool.false_eq_true]
      simp only [List.map_append, List.filter_append, List.map_cons, List.filter_cons]
      rw [@phase_execs_none (REvent.bridge i) (REvent.bridgeGapSleep i) (orOneNat cfgB)
          (fun b' => rfl) rfl,
        @phase_execs_none (REvent.swap i) (REvent.swapGapSleep i) (orOneNat cfgS)
          (fun b' => rfl) rfl,
        ih (i + 1) _]
      simp [List.range', List.range_eq_range', REvent.isExec]

/-- Whenever an account's bridge phase has started (some bridge event of
account `a` is in the trace), the unconditional inter-phase sleep of
that account is in the trace too, and so is the 30-second inter-account
sleep whenever more accounts remain — regardless of any stop request. -/
theorem acct_sleeps_after_bridge {cfgB cfgS : Nat} {stopAt : Option Nat} {N : Nat} :
    ∀ {fuel i ops a p r},
      (p, REvent.bridge a r) ∈ (accountLoopAux cfgB cfgS stopAt N fuel i ops).1 →
      (∃ q, (q, REvent.interPhaseSleep a) ∈ (accountLoopAux cfgB cfgS stopAt N fuel i ops).1)
        ∧ (a + 1 < N →
            ∃ q, (q, REvent.interAcctSleep a) ∈ (accountLoopAux cfgB cfgS stopAt N fuel i ops).1) := by
  intro fuel
  induction fuel with
  | zero => intro i ops a p r h; simp [accountLoopAux] at h
  | succ fuel ih =>
    intro i ops a p r h
    simp only [accountLoopAux] at h ⊢
    by_cases hs : stopFlag stopAt ops = true
    · simp [hs] at h
    · simp only [hs, if_false, Bool.false_eq_true] at h ⊢
      by_cases hN : i + 1 < N
      · simp only [hN, if_true, if_pos] at h ⊢
        rcases List.mem_append.mp h with h | h
        · have ha : a = i := by
            rcases phase_mem_shape h with ⟨b', hb'⟩ | hbg
            · injection hb' with h1 h2
            · cases hbg
          subst ha
          refine ⟨⟨_, List.mem_append.mpr (Or.inr (List.mem_cons_self _ _))⟩, fun _ => ?_⟩
          exact ⟨_, List.mem_append.mpr (Or.inr (List.mem_cons.mpr (Or.inr
            (List.mem_append.mpr (Or.inr (List.mem_cons_self _ _))))))⟩
        rcases List.mem_cons.mp h with h1 | h
        · rw [Prod.mk.injEq] at h1
          cases h1.2
        rcases List.mem_append.mp h with h | h
        · rcases phase_mem_shape h with ⟨b', hb'⟩ | hbg
          · cases hb'
          · cases hbg
        rcases List.mem_cons.mp h with h1 | h
        · rw [Prod.mk.injEq] at h1
          cases h1.2
        · obtain ⟨⟨q1, hq1⟩, h2⟩ := ih h
          refine ⟨⟨q1, ?_⟩, fun ha => ?_⟩
          · exact List.mem_append.mpr (Or.inr (List.mem_cons.mpr (Or.inr
              (List.mem_append.mpr (Or.inr (List.mem_cons.mpr (Or.inr hq1)))))))
          · obtain ⟨q2, hq2⟩ := h2 ha
            exact ⟨q2, List.mem_append.mpr (Or.inr (List.mem_cons.mpr (Or.inr
              (List.mem_append.mpr (Or.inr (List.mem_cons.mpr (Or.inr hq2)))))))⟩
      · simp only [hN, if_false] at h ⊢
        rcases List.mem_append.mp h with h | h
        · have ha : a = i := by
            rcases phase_mem_shape h with ⟨b', hb'⟩ | hbg
            · injection hb' with h1 h2
            · cases hbg
          subst ha
          refine ⟨⟨_, List.mem_append.mpr (Or.inr (List.mem_cons_self _ _))⟩, fun hlt => ?_⟩
          exact absurd hlt hN
        rcases List.mem_cons.mp h with h1 | h
        · rw [Prod.mk.injEq] at h1
          cases h1.2
        rcases List.mem_append.mp h with h | h
        · rcases phase_mem_shape h with ⟨b', hb'⟩ | hbg
          · cases hb'
          · cases hbg
        · obtain ⟨⟨q1, hq1⟩, h2⟩ := ih h
          refine ⟨⟨q1, ?_⟩, fun ha => ?_⟩
          · exact List.mem_append.mpr (Or.inr (List.mem_cons.mpr (Or.inr
              (List.mem_append.mpr (Or.inr hq1)))))
          · obtain ⟨q2, hq2⟩ := h2 ha
            exact ⟨q2, List.mem_append.mpr (Or.inr (List.mem_cons.mpr (Or.inr
              (List.mem_append.mpr (Or.inr hq2)))))⟩

/-- Bridge and swap counts of the canonical execution order. -/
theorem execOrder_counts (N B S : Nat) :
    (execOrder N B S).countP REvent.isBridge = B * N
      ∧ (execOrder N B S).countP REvent.isSwap = S * N := by
  induction N with
  | zero => simp [execOrder]
  | succ N ih =>
    unfold execOrder at ih ⊢
    rw [List.range_succ, List.flatMap_append]
    rw [List.countP_append, List.countP_append, ih.1, ih.2]
    constructor
    · have h1 : ([N].flatMap fun a => (List.range B).map (REvent.bridge a)
          ++ (List.range S).map (REvent.swap a)).countP REvent.isBridge = B := by
        simp only [List.flatMap_cons, List.flatMap_nil, List.append_nil, List.countP_append,
          List.countP_map]
        have hb : List.countP (REvent.isBridge ∘ REvent.bridge N) (List.range B)
            = (List.range B).length := List.countP_eq_length.mpr (fun a _ => rfl)
        have hs : List.countP (REvent.isBridge ∘ REvent.swap N) (List.range S) = 0 :=
          List.countP_eq_zero.mpr (fun a _ => by simp [REvent.isBridge])
        rw [hb, hs, List.length_range]
        omega
      rw [h1]; ring
    · have h1 : ([N].flatMap fun a => (List.range B).map (REvent.bridge a)
          ++ (List.range S).map (REvent.swap a)).countP REvent.isSwap = S := by
        simp only [List.flatMap_cons, List.flatMap_nil, List.append_nil, List.countP_append,
          List.countP_map]
        have hb : List.countP (REvent.isSwap ∘ REvent.bridge N) (List.range B) = 0 :=
          List.countP_eq_zero.mpr (fun a _ => by simp [REvent.isSwap])
        have hs : List.countP (REvent.isSwap ∘ REvent.swap N) (List.range S)
            = (List.range S).length := List.countP_eq_length.mpr (fun a _ => rfl)
        rw [hb, hs, List.length_range]
        omega
      rw [h1]; ring

/-- Counting bridge (or swap) events ignores the non-executor events. -/
theorem countP_exec_filter (l : List REvent) :
    (l.filter REvent.isExec).countP REvent.isBridge = l.countP REvent.isBridge
      ∧ (l.filter REvent.isExec).countP REvent.isSwap = l.countP REvent.isSwap := by
  constructor
  · rw [List.countP_filter]
    congr 1
    funext e
    cases e <;> rfl
  · rw [List.countP_filter]
    congr 1
    funext e
    cases e <;> rfl

/-! ### Lemmas about the log buffer -/

/-- One `addLog` step preserves "the buffer is the most recent
`LOG_LIMIT` entries of everything pushed so far". -/
theorem addLog_step (l : List String) (m : String) :
    addLog (l.drop (l.length - LOG_LIMIT)) m
      = (l ++ [m]).drop ((l ++ [m]).length - LOG_LIMIT) := by
  unfold addLog trimLogs
  by_cases h : l.length ≤ LOG_LIMIT - 1
  · have h0 : l.length - LOG_LIMIT = 0 := by unfold LOG_LIMIT at *; omega
    have h1 : (l ++ [m]).length - LOG_LIMIT = 0 := by
      simp only [List.length_append, List.length_singleton]
      unfold LOG_LIMIT at *; omega
    rw [h0, h1, List.drop_zero, List.drop_zero]
    have h2 : ¬ (l ++ [m]).length > LOG_LIMIT := by
      simp only [List.length_append, List.length_singleton]
      unfold LOG_LIMIT at *; omega
    rw [if_neg h2]
  · have hge : LOG_LIMIT ≤ l.length := by unfold LOG_LIMIT at *; omega
    have hdlen : (l.drop (l.length - LOG_LIMIT)).length = LOG_LIMIT := by
      rw [List.length_drop]; omega
    have hcond : (l.drop (l.length - LOG_LIMIT) ++ [m]).length > LOG_LIMIT := by
      simp only [List.length_append, List.length_singleton, hdlen]
      omega
    rw [if_pos hcond]
    have hlen2 : (l.drop (l.length - LOG_LIMIT) ++ [m]).length - LOG_LIMIT = 1 := by
      simp only [List.length_append, List.length_singleton, hdlen]
      omega
    rw [hlen2]
    have hstep : List.drop 1 (l.drop (l.length - LOG_LIMIT) ++ [m])
        = List.drop 1 (l.drop (l.length - LOG_LIMIT)) ++ [m] := by
      apply List.drop_append_of_le_length
      rw [hdlen]; unfold LOG_LIMIT; omega
    rw [hstep, List.drop_drop]
    have hrhs : (l ++ [m]).length - LOG_LIMIT = l.length - LOG_LIMIT + 1 := by
      simp only [List.length_append, List.length_singleton]
      omega
    rw [hrhs]
    have hpos : 1 ≤ LOG_LIMIT := by unfold LOG_LIMIT; omega
    rw [List.drop_append_of_le_length (by omega)]

/-- Folding `addLog` from any "trimmed" state keeps the most recent
`LOG_LIMIT` messages. -/
theorem addLog_foldl (ms : List String) :
    ∀ l : List String,
      List.foldl addLog (l.drop (l.length - LOG_LIMIT)) ms
        = (l ++ ms).drop ((l ++ ms).length - LOG_LIMIT) := by
  induction ms with
  | nil => intro l; simp
  | cons m ms ih =>
    intro l
    rw [List.foldl_cons, addLog_step, ih (l ++ [m])]
    simp [List.append_assoc]

/-- The universal variant's `addLog` never discards anything. -/
theorem addLogU_foldl_length (ms : List String) :
    ∀ l : List String, (List.foldl addLogU l ms).length = l.length + ms.length := by
  induction ms with
  | nil => intro l; simp
  | cons m ms ih =>
    intro l
    rw [List.foldl_cons, ih]
    simp [addLogU]
    omega

/-! ### Lemmas about the executors -/

/-- When the approval helper reports failure it has logged an
`approve failed` line carrying the account index. -/
theorem checkAndApprove_false_log (env : BridgeEnv) (wei : Int) (i : Nat)
    (h : (checkAndApprove env wei i).1 = false) :
    ∃ e : String, s!"Acct {i+1}: approve failed: {e}" ∈ (checkAndApprove env wei i).2 := by
  unfold checkAndApprove at h ⊢
  rcases env with ⟨al, an, af, as, aw, dn, df, ds, dw⟩
  dsimp only at h ⊢
  cases al with
  | error e => exact ⟨e, by simp⟩
  | ok a =>
    by_cases ha : a ≥ wei
    · simp [ha] at h
    · simp only [ha, if_false] at h ⊢
      cases an with
      | error e => exact ⟨e, by simp⟩
      | ok _ =>
        cases af with
        | error e => exact ⟨e, by simp⟩
        | ok _ =>
          cases as with
          | error e => exact ⟨e, by simp⟩
          | ok hh =>
            cases aw with
            | error e => exact ⟨e, by simp⟩
            | ok _ => simp at h

/-- Same fact for the `src/index.js` helper `checkAndApproveIfNeeded`. -/
theorem checkAndApproveIfNeeded_false_log (env : BridgeEnv) (wei : Int) (i : Nat)
    (h : (checkAndApproveIfNeeded env wei i).1 = false) :
    ∃ e : String, s!"Acct {i+1}: approve failed: {e}" ∈ (checkAndApproveIfNeeded env wei i).2 := by
  unfold checkAndApproveIfNeeded at h ⊢
  rcases env with ⟨al, an, af, as, aw, dn, df, ds, dw⟩
  dsimp only at h ⊢
  cases al with
  | error e => exact ⟨e, by simp⟩
  | ok a =>
    by_cases ha : a ≥ wei
    · simp [ha] at h
    · simp only [ha, if_false] at h ⊢
      cases an with
      | error e => exact ⟨e, by simp⟩
      | ok _ =>
        cases af with
        | error e => exact ⟨e, by simp⟩
        | ok _ =>
          cases as with
          | error e => exact ⟨e, by simp⟩
          | ok hh =>
            cases aw with
            | error e => exact ⟨e, by simp⟩
            | ok _ => simp at h

/-- The `src/index.js` swap executor: any failing RPC step yields
`false` plus an account-indexed `swap error` log. -/
theorem performSwapSimple_err (env : SwapEnv) (i : Nat)
    (h : (isErr env.nonce || isErr env.feeData || isErr env.send || isErr env.wait) = true) :
    (performSwapSimple env i).1 = false
      ∧ ∃ e : String, s!"Acct {i+1}: swap error: {e}" ∈ (performSwapSimple env i).2 := by
  unfold performSwapSimple
  rcases env with ⟨n, f, s, w⟩
  dsimp only at h ⊢
  cases n with
  | error e => exact ⟨rfl, e, by simp⟩
  | ok _ =>
    cases f with
    | error e => exact ⟨rfl, e, by simp⟩
    | ok _ =>
      cases s with
      | error e => exact ⟨rfl, e, by simp⟩
      | ok hh =>
        cases w with
        | error e => exact ⟨rfl, e, by simp⟩
        | ok _ => simp [isErr] at h

/-- The universal-variant swap executor: any failing RPC step yields
`false` plus an account-indexed `swap encoding failed` log. -/
theorem performSwapSimpleU_err (env : SwapEnv) (i : Nat)
    (h : (isErr env.nonce || isErr env.feeData || isErr env.send || isErr env.wait) = true) :
    (performSwapSimpleU env i).1 = false
      ∧ ∃ e : String, s!"Acct {i+1}: swap encoding failed: {e}" ∈ (performSwapSimpleU env i).2 := by
  unfold performSwapSimpleU
  rcases env with ⟨n, f, s, w⟩
  dsimp only at h ⊢
  cases n with
  | error e => exact ⟨rfl, e, by simp⟩
  | ok _ =>
    cases f with
    | error e => exact ⟨rfl, e, by simp⟩
    | ok _ =>
      cases s with
      | error e => exact ⟨rfl, e, by simp⟩
      | ok hh =>
        cases w with
        | error e => exact ⟨rfl, e, by simp⟩
        | ok _ => simp [isErr] at h

/-- The universal-variant bridge executor aborts on approval failure:
`false`, and the deposit call is never reached. -/
theorem performBridgeSimpleU_approve_fail (env : BridgeEnv) (wei : Int) (i : Nat)
    (h : (checkAndApprove env wei i).1 = false) :
    (performBridgeSimpleU env wei i).ok = false
      ∧ (performBridgeSimpleU env wei i).attemptedDeposit = false := by
  simp only [performBridgeSimpleU, h, Bool.false_eq_true, if_false]
  simp

/-- The universal-variant bridge executor: when approval succeeded but a
deposit-path RPC step fails, the call returns `false` with an
account-indexed `bridge error` log. -/
theorem performBridgeSimpleU_deposit_err (env : BridgeEnv) (wei : Int) (i : Nat)
    (hap : (checkAndApprove env wei i).1 = true)
    (h : (isErr env.depositNonce || isErr env.depositFeeData
          || isErr env.depositSend || isErr env.depositWait) = true) :
    (performBridgeSimpleU env wei i).ok = false
      ∧ ∃ e : String, s!"Acct {i+1}: bridge error: {e}" ∈ (performBridgeSimpleU env wei i).logs := by
  simp only [performBridgeSimpleU, hap, if_true]
  cases hdn : env.depositNonce with
  | error e => exact ⟨rfl, e, by simp⟩
  | ok _ =>
    cases hdf : env.depositFeeData with
    | error e => exact ⟨rfl, e, by simp⟩
    | ok _ =>
      cases hds : env.depositSend with
      | error e => exact ⟨rfl, e, by simp⟩
      | ok hh =>
        cases hdw : env.depositWait with
        | error e => exact ⟨rfl, e, by simp⟩
        | ok _ => simp [isErr, hdn, hdf, hds, hdw] at h

/-! ### Numeric helper lemmas -/

theorem round_le_of_lt_half (x : Rat) (n : Int) (h : x < (n : Rat) + 1/2) :
    round x ≤ n := by
  rw [round_eq]
  rw [Int.floor_le_iff]
  linarith

theorem le_round_of_le (x : Rat) (n : Int) (h : (n : Rat) ≤ x) : n ≤ round x := by
  rw [round_eq]
  exact Int.le_floor.mpr (by linarith)

/-- The `src/index.js` bridge amount always lands in [0.01, 0.03]. -/
theorem bridgeAmount_bounds (r : Rat) (h0 : 0 ≤ r) (h1 : r < 1) :
    1/100 ≤ bridgeAmount r ∧ bridgeAmount r ≤ 3/100 := by
  unfold bridgeAmount round6
  constructor
  · have h : (10000 : Int) ≤ round ((r * (3/100 - 1/100) + 1/100) * 10 ^ 6) := by
      apply le_round_of_le
      push_cast
      nlinarith
    have hc : ((10000 : Int) : Rat) ≤ ((round ((r * (3/100 - 1/100) + 1/100) * 10 ^ 6) : Int) : Rat) :=
      Int.cast_le.mpr h
    push_cast at hc
    linarith
  · have h : round ((r * (3/100 - 1/100) + 1/100) * 10 ^ 6) ≤ (30000 : Int) := by
      apply round_le_of_lt_half
      push_cast
      nlinarith
    have hc : ((round ((r * (3/100 - 1/100) + 1/100) * 10 ^ 6) : Int) : Rat) ≤ ((30000 : Int) : Rat) :=
      Int.cast_le.mpr h
    push_cast at hc
    linarith

/-- The universal-variant bridge amount always lands in [0.01, 0.05]. -/
theorem bridgeAmountU_bounds (r : Rat) (h0 : 0 ≤ r) (h1 : r < 1) :
    1/100 ≤ bridgeAmountU r ∧ bridgeAmountU r ≤ 5/100 := by
  unfold bridgeAmountU round6
  constructor
  · have h : (10000 : Int) ≤ round ((r * (5/100 - 1/100) + 1/100) * 10 ^ 6) := by
      apply le_round_of_le
      push_cast
      nlinarith
    have hc : ((10000 : Int) : Rat) ≤ ((round ((r * (5/100 - 1/100) + 1/100) * 10 ^ 6) : Int) : Rat) :=
      Int.cast_le.mpr h
    push_cast at hc
    linarith
  · have h : round ((r * (5/100 - 1/100) + 1/100) * 10 ^ 6) ≤ (50000 : Int) := by
      apply round_le_of_lt_half
      push_cast
      nlinarith
    have hc : ((round ((r * (5/100 - 1/100) + 1/100) * 10 ^ 6) : Int) : Rat) ≤ ((50000 : Int) : Rat) :=
      Int.cast_le.mpr h
    push_cast at hc
    linarith

/-- On a value already rounded to 6 decimals, `parseUnits(·, 18)` is
exactly scaling by `10¹⁸` (no truncation). -/
theorem parseUnits18_round6 (x : Rat) :
    ((parseUnits18 (round6 x) : Int) : Rat) = round6 x * 10 ^ 18 := by
  unfold parseUnits18 round6
  have h : ((round (x * 10 ^ 6) : Int) : Rat) / 10 ^ 6 * 10 ^ 18
      = (((round (x * 10 ^ 6) * 10 ^ 12 : Int) : Int) : Rat) := by
    push_cast
    ring
  rw [h, Int.floor_intCast]

/-- The inter-phase random sleep of `src/index.js` is between 7 and 15
seconds. -/
theorem sleepRandom_7000_15000_bounds (r : Rat) (h0 : 0 ≤ r) (h1 : r < 1) :
    (7000 : Int) ≤ sleepRandomMs 7000 15000 r ∧ sleepRandomMs 7000 15000 r ≤ 15000 := by
  unfold sleepRandomMs
  norm_num
  constructor
  · have h : (0 : Int) ≤ ⌊r * 8001⌋ := Int.le_floor.mpr (by push_cast; nlinarith)
    omega
  · have h : ⌊r * 8001⌋ ≤ (8000 : Int) := by
      rw [Int.floor_le_iff]
      push_cast
      nlinarith
    omega

/-! ### Control-flag invariant -/

/-- Starting from idle flags, every sequence of control operations of
`src/index.js` keeps the invariant "cancel requested implies running". -/
theorem ctrl_inv_preserved :
    ∀ (l : List CtrlOp) (st : RunFlags),
      (st.cancelRequested = true → st.running = true) →
      ((l.foldl ctrlStep st).cancelRequested = true → (l.foldl ctrlStep st).running = true) := by
  intro l
  induction l with
  | nil => intro st h; exact h
  | cons op l ih =>
    intro st h
    rw [List.foldl_cons]
    apply ih
    cases op with
    | start hk =>
      cases hk with
      | false => simpa [ctrlStep] using h
      | true =>
        by_cases h2 : st.running = true
        · simp [ctrlStep, h2]
        · simp [ctrlStep, h2]
    | stopRequest =>
      by_cases h2 : st.running = true
      · simp [ctrlStep, h2]
      · simp [ctrlStep, h2]
        cases hc : st.cancelRequested with
        | false => rfl
        | true => exact absurd (h hc) h2
    | loopExit k => simp [ctrlStep]

/-! ### Claim theorems -/

/-- C1: for configured `bridgeRepetitions = B ≥ 1`, `swapRepetitions =
S ≥ 1` and `N` loaded accounts, a full run with no cancellation request
executes the Bridge executor exactly `B·N` times and the Swap executor
exactly `S·N` times, in strict per-account order: for each account all
`B` bridge executions, then all `S` swap executions, before any
operation of the next account. -/
theorem C1_uncancelled_run_order (cfgB cfgS N : Nat) (hB : 1 ≤ cfgB) (hS : 1 ≤ cfgS) :
    (((runDailyActivityLoop cfgB cfgS N none).1.map Prod.snd).filter REvent.isExec)
        = execOrder N cfgB cfgS
      ∧ ((runDailyActivityLoop cfgB cfgS N none).1.map Prod.snd).countP REvent.isBridge
        = cfgB * N
      ∧ ((runDailyActivityLoop cfgB cfgS N none).1.map Prod.snd).countP REvent.isSwap
        = cfgS * N := by
  have hBo : orOneNat cfgB = cfgB := by unfold orOneNat; rw [if_neg (by omega)]
  have hSo : orOneNat cfgS = cfgS := by unfold orOneNat; rw [if_neg (by omega)]
  have hmain : (((runDailyActivityLoop cfgB cfgS N none).1.map Prod.snd).filter REvent.isExec)
      = execOrder N cfgB cfgS := by
    show (((accountLoopAux cfgB cfgS none N N 0 0).1.map Prod.snd).filter REvent.isExec) = _
    rw [acct_execs_none N 0 0, hBo, hSo]
    unfold execOrder
    rw [List.range_eq_range' N]
  refine ⟨hmain, ?_, ?_⟩
  · have h2 := (countP_exec_filter ((runDailyActivityLoop cfgB cfgS N none).1.map Prod.snd)).1
    rw [hmain] at h2
    rw [← h2]
    exact (execOrder_counts N cfgB cfgS).1
  · have h2 := (countP_exec_filter ((runDailyActivityLoop cfgB cfgS N none).1.map Prod.snd)).2
    rw [hmain] at h2
    rw [← h2]
    exact (execOrder_counts N cfgB cfgS).2

/-- C1 witness: two accounts, two bridge repetitions, one swap
repetition. -/
theorem C1_witness :
    (((runDailyActivityLoop 2 1 2 none).1.map Prod.snd).filter REvent.isExec)
        = execOrder 2 2 1
      ∧ ((runDailyActivityLoop 2 1 2 none).1.map Prod.snd).countP REvent.isBridge = 2 * 2
      ∧ ((runDailyActivityLoop 2 1 2 none).1.map Prod.snd).countP REvent.isSwap = 1 * 2 :=
  C1_uncancelled_run_order 2 1 2 (by decide) (by decide)

/-- C2 counterexample: the claim says the bridge amount is drawn
uniformly from [0.01, 0.05], but the `src/index.js` bridge executor can
never produce 0.04 (its range is [0.01, 0.03]); the universal variant
can (r = 3/4 yields exactly 0.04). -/
theorem C2_counterexample :
    (¬ ∃ r : Rat, 0 ≤ r ∧ r < 1 ∧ bridgeAmount r = 1/25)
      ∧ bridgeAmountU (3/4) = 1/25 := by
  constructor
  · rintro ⟨r, h0, h1, he⟩
    have hub := (bridgeAmount_bounds r h0 h1).2
    rw [he] at hub
    norm_num at hub
  · unfold bridgeAmountU
    rw [round6_eq_int _ 40000 (by norm_num)]
    norm_num

/-- C2 amended: the `src/index.js` bridge amount is drawn from
[0.01, 0.03] and the universal variant's from [0.01, 0.05] (each an
affine map of the uniform source), rounded to 6 decimal places, and the
base-unit conversion with 18 decimals is the exact scaling by `10¹⁸`. -/
theorem C2_amended_amount (r : Rat) (h0 : 0 ≤ r) (h1 : r < 1) :
    (1/100 ≤ bridgeAmount r ∧ bridgeAmount r ≤ 3/100)
      ∧ (1/100 ≤ bridgeAmountU r ∧ bridgeAmountU r ≤ 5/100)
      ∧ (∃ n : Int, bridgeAmount r = (n : Rat) / 10 ^ 6)
      ∧ (∃ n : Int, bridgeAmountU r = (n : Rat) / 10 ^ 6)
      ∧ ((parseUnits18 (bridgeAmount r) : Rat) = bridgeAmount r * 10 ^ 18)
      ∧ ((parseUnits18 (bridgeAmountU r) : Rat) = bridgeAmountU r * 10 ^ 18) :=
  ⟨bridgeAmount_bounds r h0 h1, bridgeAmountU_bounds r h0 h1,
   ⟨round ((r * (3 / 100 - 1 / 100) + 1 / 100) * 10 ^ 6), rfl⟩,
   ⟨round ((r * (5 / 100 - 1 / 100) + 1 / 100) * 10 ^ 6), rfl⟩,
   parseUnits18_round6 _, parseUnits18_round6 _⟩

/-- C2 witness at r = 1/2. -/
theorem C2_witness :
    (1/100 ≤ bridgeAmount (1/2) ∧ bridgeAmount (1/2) ≤ 3/100)
      ∧ (1/100 ≤ bridgeAmountU (1/2) ∧ bridgeAmountU (1/2) ≤ 5/100)
      ∧ (∃ n : Int, bridgeAmount (1/2) = (n : Rat) / 10 ^ 6)
      ∧ (∃ n : Int, bridgeAmountU (1/2) = (n : Rat) / 10 ^ 6)
      ∧ ((parseUnits18 (bridgeAmount (1/2)) : Rat) = bridgeAmount (1/2) * 10 ^ 18)
      ∧ ((parseUnits18 (bridgeAmountU (1/2)) : Rat) = bridgeAmountU (1/2) * 10 ^ 18) :=
  C2_amended_amount (1/2) (by norm_num) (by norm_num)

/-- C3 counterexample: in `src/index.js` a failed approval step does NOT
abort the bridge executor call — the helper reports failure, yet the
deposit is still submitted and the call returns `true`. -/
theorem C3_counterexample :
    (checkAndApproveIfNeeded c3Env 1 0).1 = false
      ∧ (performBridgeSimple c3Env 1 0).ok = true
      ∧ (performBridgeSimple c3Env 1 0).attemptedDeposit = true := by
  exact ⟨rfl, rfl, rfl⟩

/-- C3 amended: in the universal variant (`if (!ok) return false`) a
failed approval step aborts the executor call: it returns `false`
without ever reaching the deposit submission, and the failure is logged
with the account index; `src/index.js` instead ignores the approval
result and proceeds to the deposit. -/
theorem C3_amended (env : BridgeEnv) (wei : Int) (i : Nat)
    (h : (checkAndApprove env wei i).1 = false) :
    (performBridgeSimpleU env wei i).ok = false
      ∧ (performBridgeSimpleU env wei i).attemptedDeposit = false
      ∧ ∃ e : String, s!"Acct {i+1}: approve failed: {e}"
          ∈ (performBridgeSimpleU env wei i).logs := by
  obtain ⟨h1, h2⟩ := performBridgeSimpleU_approve_fail env wei i h
  obtain ⟨e, he⟩ := checkAndApprove_false_log env wei i h
  refine ⟨h1, h2, e, ?_⟩
  simp only [performBridgeSimpleU, h, Bool.false_eq_true, if_false]
  exact he

/-- C3 witness: concrete failing-allowance environment. -/
theorem C3_witness :
    (performBridgeSimpleU c3Env 1 0).ok = false
      ∧ (performBridgeSimpleU c3Env 1 0).attemptedDeposit = false
      ∧ ∃ e : String, s!"Acct {0+1}: approve failed: {e}"
          ∈ (performBridgeSimpleU c3Env 1 0).logs :=
  C3_amended c3Env 1 0 (by decide)

/-- C4 counterexample: the universal variant's `addLog` never trims, so
1001 appended entries leave 1001 entries in the buffer — more than the
claimed cap of 1000. -/
theorem C4_counterexample :
    (List.foldl addLogU [] (List.replicate 1001 "entry")).length = 1001
      ∧ LOG_LIMIT < (List.foldl addLogU [] (List.replicate 1001 "entry")).length := by
  have h : (List.foldl addLogU [] (List.replicate 1001 "entry")).length = 1001 := by
    rw [addLogU_foldl_length, List.length_nil, List.length_replicate]
  exact ⟨h, by rw [h]; unfold LOG_LIMIT; omega⟩

/-- C4 amended: in `src/index.js` the buffer after any sequence of
appends is exactly the most recent (at most 1000) messages in order;
pushing 1001 entries keeps the last 1000, evicting the oldest first.
The universal variant's `addLog` has no cap. -/
theorem C4_amended (ms : List String) :
    List.foldl addLog [] ms = ms.drop (ms.length - LOG_LIMIT)
      ∧ (List.foldl addLog [] ms).length = min ms.length LOG_LIMIT := by
  have h := addLog_foldl ms []
  simp only [List.drop_nil, List.nil_append, List.length_nil] at h
  refine ⟨h, ?_⟩
  rw [h, List.length_drop]
  omega

/-- C5 counterexample: the universal variant's runner has no
`finally`; after a run cancelled during its first operation the loop
has exited (`running` is false) but the cancellation flag is still set. -/
theorem C5_counterexample :
    (runDailyActivityLoopU 1 1 1 (some 1)).2.running = false
      ∧ (runDailyActivityLoopU 1 1 1 (some 1)).2.cancelRequested = true := by
  exact ⟨rfl, by decide⟩

/-- C5 amended: in `src/index.js` both flags are reset to false on every
loop exit (normal, cancelled or fault — the `finally` runs in all
cases), and the cancellation flag is only ever set while the running
flag is true; the universal variant clears only the running flag on
exit, leaving the cancellation flag at its last value. -/
theorem C5_amended :
    (∀ l : List CtrlOp,
        (l.foldl ctrlStep ⟨false, false⟩).cancelRequested = true →
          (l.foldl ctrlStep ⟨false, false⟩).running = true)
      ∧ (∀ (st : RunFlags) (k : ExitKind), ctrlStep st (.loopExit k) = ⟨false, false⟩)
      ∧ (∀ cfgB cfgS N stopAt, (runDailyActivityLoop cfgB cfgS N stopAt).2 = ⟨false, false⟩)
      ∧ (∀ cfgB cfgS N stopAt, (runDailyActivityLoopU cfgB cfgS N stopAt).2.running = false) := by
  refine ⟨?_, ?_, ?_, ?_⟩
  · intro l
    exact ctrl_inv_preserved l ⟨false, false⟩ (by simp)
  · intro st k; rfl
  · intro cfgB cfgS N stopAt; rfl
  · intro cfgB cfgS N stopAt; rfl

/-- C5 witness: a start followed by a stop request leaves the invariant
intact, and a concrete cancelled index.js run ends with both flags
cleared. -/
theorem C5_witness :
    (([CtrlOp.start true, CtrlOp.stopRequest].foldl ctrlStep ⟨false, false⟩).running = true)
      ∧ ctrlStep ⟨true, true⟩ (.loopExit .fault) = ⟨false, false⟩
      ∧ (runDailyActivityLoop 1 1 1 (some 1)).2 = ⟨false, false⟩ :=
  ⟨C5_amended.1 [CtrlOp.start true, CtrlOp.stopRequest] (by decide),
   C5_amended.2.1 ⟨true, true⟩ .fault,
   C5_amended.2.2.1 1 1 1 (some 1)⟩

/-- C6 counterexample: in the `src/index.js` bridge executor an internal
failure (the allowance query throws) is caught and logged with the
account index, yet the executor returns `true` — the failure is NOT
converted to a `false` return value. -/
theorem C6_counterexample :
    ("Acct 1: approve failed: rpc timeout" ∈ (performBridgeSimple c6Env 1 0).logs)
      ∧ (performBridgeSimple c6Env 1 0).ok = true := by
  exact ⟨by decide, rfl⟩

/-- C6 amended: both swap executors and the universal-variant bridge
executor never throw, and convert every internal failure to a `false`
return with a log line carrying the account index and the reason; the
`src/index.js` bridge executor does the same except that a failed
approval is only caught and logged, after which the call continues and
may still return `true`. -/
theorem C6_amended :
    (∀ (env : SwapEnv) (i : Nat),
        (isErr env.nonce || isErr env.feeData || isErr env.send || isErr env.wait) = true →
          (performSwapSimple env i).1 = false
            ∧ ∃ e : String, s!"Acct {i+1}: swap error: {e}" ∈ (performSwapSimple env i).2)
      ∧ (∀ (env : SwapEnv) (i : Nat),
          (isErr env.nonce || isErr env.feeData || isErr env.send || isErr env.wait) = true →
            (performSwapSimpleU env i).1 = false
              ∧ ∃ e : String, s!"Acct {i+1}: swap encoding failed: {e}"
                  ∈ (performSwapSimpleU env i).2)
      ∧ (∀ (env : BridgeEnv) (wei : Int) (i : Nat),
          (checkAndApprove env wei i).1 = false →
            (performBridgeSimpleU env wei i).ok = false
              ∧ ∃ e : String, s!"Acct {i+1}: approve failed: {e}"
                  ∈ (performBridgeSimpleU env wei i).logs)
      ∧ (∀ (env : BridgeEnv) (wei : Int) (i : Nat),
          (checkAndApprove env wei i).1 = true →
          (isErr env.depositNonce || isErr env.depositFeeData
            || isErr env.depositSend || isErr env.depositWait) = true →
            (performBridgeSimpleU env wei i).ok = false
              ∧ ∃ e : String, s!"Acct {i+1}: bridge error: {e}"
                  ∈ (performBridgeSimpleU env wei i).logs) := by
  refine ⟨performSwapSimple_err, performSwapSimpleU_err, ?_, performBridgeSimpleU_deposit_err⟩
  intro env wei i h
  obtain ⟨h1, _⟩ := performBridgeSimpleU_approve_fail env wei i h
  obtain ⟨e, he⟩ := checkAndApprove_false_log env wei i h
  refine ⟨h1, e, ?_⟩
  simp only [performBridgeSimpleU, h, Bool.false_eq_true, if_false]
  exact he

/-- C6 witness: each compliant executor at a concrete failing
environment. -/
theorem C6_witness :
    ((performSwapSimple c6SwapEnv 0).1 = false
        ∧ ∃ e : String, s!"Acct {0+1}: swap error: {e}" ∈ (performSwapSimple c6SwapEnv 0).2)
      ∧ ((performSwapSimpleU c6SwapEnv 0).1 = false
          ∧ ∃ e : String, s!"Acct {0+1}: swap encoding failed: {e}"
              ∈ (performSwapSimpleU c6SwapEnv 0).2)
      ∧ ((performBridgeSimpleU c6Env 1 0).ok = false
          ∧ ∃ e : String, s!"Acct {0+1}: approve failed: {e}"
              ∈ (performBridgeSimpleU c6Env 1 0).logs) :=
  ⟨C6_amended.1 c6SwapEnv 0 (by decide),
   C6_amended.2.1 c6SwapEnv 0 (by decide),
   C6_amended.2.2.1 c6Env 1 0 (by decide)⟩

/-- C7 counterexample: in the universal variant a cancellation request
observed during account 0's bridge phase does stop further work, but
the final state is not "both flags cleared": the cancellation flag is
still set when the loop exits. -/
theorem C7_counterexample :
    ((0, REvent.bridge 0 0) ∈ (runDailyActivityLoopU 1 1 2 (some 1)).1)
      ∧ (runDailyActivityLoopU 1 1 2 (some 1)).2.cancelRequested = true := by
  exact ⟨by decide, by decide⟩

/-- C7 amended: if the stop request arrives during an operation that is
a bridge execution of account `i` (operation index `p`, so the flag
reads true from `p+1` completed operations on), that repetition
finishes, and no executor operation with index greater than `p` occurs
— no further repetitions and no further accounts; in `src/index.js` the
final flags are both cleared (the universal variant leaves the
cancellation flag set). -/
theorem C7_amended (cfgB cfgS N p i r : Nat)
    (_hreq : (p, REvent.bridge i r) ∈ (runDailyActivityLoop cfgB cfgS N (some (p + 1))).1) :
    (∀ q e, (q, e) ∈ (runDailyActivityLoop cfgB cfgS N (some (p + 1))).1 →
        e.isExec = true → q ≤ p)
      ∧ (runDailyActivityLoop cfgB cfgS N (some (p + 1))).2 = ⟨false, false⟩ := by
  constructor
  · intro q e hq hx
    have hq' : (q, e) ∈ (accountLoopAux cfgB cfgS (some (p + 1)) N N 0 0).1 := hq
    have hstop := acct_exec_not_stopped hq' hx
    unfold stopFlag at hstop
    simp at hstop
    omega
  · rfl

/-- C7 witness: request during the very first bridge of account 0, two
accounts configured. -/
theorem C7_witness :
    (∀ q e, (q, e) ∈ (runDailyActivityLoop 1 1 2 (some (0 + 1))).1 →
        e.isExec = true → q ≤ 0)
      ∧ (runDailyActivityLoop 1 1 2 (some (0 + 1))).2 = ⟨false, false⟩ :=
  C7_amended 1 1 2 0 0 0 (by decide)

/-- C8: proxy resolution is a deterministic total function of the
account index: with a non-empty proxy list, account `i` resolves to
`proxies[i mod length]` (in both variants), with an empty list to no
proxy; and every entry produced by the line loader is non-empty, so the
`|| null` fallback never fires on a loaded proxy. -/
theorem C8_proxy_resolution (proxies : List String) (i : Nat)
    (hne : ∀ s ∈ proxies, s ≠ "") :
    (proxies = [] → resolveProxy proxies i = none ∧ resolveProxyU proxies i = none)
      ∧ (proxies ≠ [] →
          resolveProxy proxies i = proxies[i % proxies.length]?
            ∧ resolveProxyU proxies i = resolveProxy proxies i
            ∧ (resolveProxy proxies i).isSome = true)
      ∧ (∀ data : String, ∀ s ∈ readLines data, s ≠ "") := by
  refine ⟨?_, ?_, ?_⟩
  · intro h
    subst h
    exact ⟨rfl, rfl⟩
  · intro h
    have hlen : 0 < proxies.length := List.length_pos.mpr h
    have hm : i % proxies.length < proxies.length := Nat.mod_lt _ hlen
    have hmax : max 1 proxies.length = proxies.length := by omega
    have hget : proxies.get? (i % proxies.length) = some proxies[i % proxies.length] := by
      rw [List.get?_eq_getElem?]
      exact List.getElem?_eq_getElem hm
    have hmem : proxies[i % proxies.length] ∈ proxies := List.getElem_mem hm
    have hne' : proxies[i % proxies.length] ≠ "" := hne _ hmem
    have hval : resolveProxy proxies i = some proxies[i % proxies.length] := by
      unfold resolveProxy
      rw [hmax, hget]
      simp [hne']
    have hvalU : resolveProxyU proxies i = some proxies[i % proxies.length] := by
      unfold resolveProxyU
      rw [hget]
      simp [hne']
    refine ⟨?_, ?_, ?_⟩
    · rw [hval, List.getElem?_eq_getElem hm]
    · rw [hvalU, hval]
    · rw [hval]; rfl
  · intro data s hs
    unfold readLines at hs
    rw [List.mem_filter] at hs
    have hlen := hs.2
    simp only [decide_eq_true_eq] at hlen
    intro hemp
    subst hemp
    exact absurd hlen (by decide)

/-- C8 witness: three proxies, account index 5 resolves to the third. -/
theorem C8_witness :
    resolveProxy ["p0", "p1", "p2"] 5 = (["p0", "p1", "p2"])[5 % (["p0", "p1", "p2"] : List String).length]?
      ∧ resolveProxyU ["p0", "p1", "p2"] 5 = resolveProxy ["p0", "p1", "p2"] 5
      ∧ (resolveProxy ["p0", "p1", "p2"] 5).isSome = true :=
  (C8_proxy_resolution ["p0", "p1", "p2"] 5 (by decide)).2.1 (by decide)

/-- C9 counterexample: a previously saved numeric value of -2 reloads
identically, so after loading, `bridgeRepetitions` is not a positive
integer ≥ 1 as claimed. -/
theorem C9_counterexample :
    (loadConfig (.num (-2)) (.num 3)).bridgeRepetitions = -2
      ∧ ¬ (1 ≤ (loadConfig (.num (-2)) (.num 3)).bridgeRepetitions) := by
  exact ⟨rfl, by decide⟩

/-- C9 amended: a missing or non-numeric (NaN-producing) field — and
also a zero — loads as 1; any other saved numeric value reloads
identically (so the round-trip holds, but the result is ≥ 1 only when
the stored value is ≥ 1). -/
theorem C9_amended :
    loadConfig .missing (.str none) = ⟨1, 1⟩
      ∧ loadConfig (.num 3) (.num 2) = ⟨3, 2⟩
      ∧ (∀ q : Rat, q ≠ 0 → (loadConfig (.num q) (.num q)).bridgeRepetitions = q)
      ∧ (∀ q : Rat, 1 ≤ q → 1 ≤ (loadConfig (.num q) (.num q)).bridgeRepetitions)
      ∧ (∀ f : JsonField, jsNumber f = none → loadConfig f f = ⟨1, 1⟩) := by
  refine ⟨by decide, by decide, ?_, ?_, ?_⟩
  · intro q hq
    simp [loadConfig, jsNumber, jsOr1, hq]
  · intro q hq
    have h0 : q ≠ 0 := by
      intro h
      rw [h] at hq
      norm_num at hq
    simp only [loadConfig, jsNumber, jsOr1, h0, if_false]
    exact hq
  · intro f hf
    simp [loadConfig, hf, jsOr1]

/-- C9 witness. -/
theorem C9_witness :
    (loadConfig (.num 5) (.num 5)).bridgeRepetitions = 5
      ∧ 1 ≤ (loadConfig (.num 5) (.num 5)).bridgeRepetitions
      ∧ loadConfig .missing .missing = ⟨1, 1⟩ :=
  ⟨C9_amended.2.2.1 5 (by norm_num), C9_amended.2.2.2.1 5 (by norm_num),
   C9_amended.2.2.2.2 .missing rfl⟩

/-- C10: once an account's bridge phase has started, the unconditional
inter-phase sleep of that account appears in the trace, and the fixed
30-second inter-account sleep appears whenever more accounts remain —
for every stop schedule, i.e. even when cancellation was already
requested; the inter-phase sleep lasts at most 15 s, so the two pending
sleeps add up to at most 45 s before the loop reaches idle. -/
theorem C10_pending_sleeps :
    (∀ cfgB cfgS N stopAt i p r,
        (p, REvent.bridge i r) ∈ (runDailyActivityLoop cfgB cfgS N stopAt).1 →
          (∃ q, (q, REvent.interPhaseSleep i) ∈ (runDailyActivityLoop cfgB cfgS N stopAt).1)
            ∧ (i + 1 < N →
                ∃ q, (q, REvent.interAcctSleep i) ∈ (runDailyActivityLoop cfgB cfgS N stopAt).1))
      ∧ (∀ r : Rat, 0 ≤ r → r < 1 →
          sleepRandomMs 7000 15000 r + (INTER_ACCOUNT_SLEEP_MS : Int) ≤ 45000
            ∧ (INTER_ACCOUNT_SLEEP_MS : Int) = 30000) := by
  constructor
  · intro cfgB cfgS N stopAt i p r hp
    have hp' : (p, REvent.bridge i r) ∈ (accountLoopAux cfgB cfgS stopAt N N 0 0).1 := hp
    obtain ⟨⟨q1, hq1⟩, h2⟩ := acct_sleeps_after_bridge hp'
    refine ⟨⟨q1, hq1⟩, fun hlt => ?_⟩
    obtain ⟨q2, hq2⟩ := h2 hlt
    exact ⟨q2, hq2⟩
  · intro r h0 h1
    have hb := (sleepRandom_7000_15000_bounds r h0 h1).2
    refine ⟨?_, rfl⟩
    unfold INTER_ACCOUNT_SLEEP_MS
    omega

/-- C10 witness: stop requested during the very first bridge; the
inter-phase and inter-account sleeps still appear. -/
theorem C10_witness :
    ((∃ q, (q, REvent.interPhaseSleep 0) ∈ (runDailyActivityLoop 1 1 2 (some 1)).1)
        ∧ (0 + 1 < 2 →
            ∃ q, (q, REvent.interAcctSleep 0) ∈ (runDailyActivityLoop 1 1 2 (some 1)).1))
      ∧ (sleepRandomMs 7000 15000 (1/2) + (INTER_ACCOUNT_SLEEP_MS : Int) ≤ 45000
          ∧ (INTER_ACCOUNT_SLEEP_MS : Int) = 30000) :=
  ⟨C10_pending_sleeps.1 1 1 2 (some 1) 0 0 0 (by decide),
   C10_pending_sleeps.2 (1/2) (by norm_num) (by norm_num)⟩
